import Mathlib

/-!
# batch-job-controller: configuration naming, owner resolution, callback admission

A shallow embedding of `pkg/config/types.go` and `pkg/config/config.go`, together with the
callback server of `pkg/http` as far as the specification describes it.

Go strings are modelled by Lean strings. The only separator the code splits on is the
single byte `.`, which never occurs inside a multi-byte UTF-8 sequence, so splitting the
character sequence agrees with splitting the byte sequence.
-/

namespace BatchJobController

/-! ## Go standard library: the part of `strings` used by `PodName` -/

/-- Go `strings.IndexByte`: position of the first occurrence of `c`, `none` for Go's `-1`. -/
def IndexByte : List Char → Char → Option Nat
  | [], _ => none
  | x :: xs, c => if x = c then some 0 else (IndexByte xs c).map (· + 1)

/-- Go `strings.Count` for a one-byte separator: the number of occurrences of `c`. -/
def Count (s : List Char) (c : Char) : Nat :=
  s.count c

/-- The loop of Go `genSplit` for a one-byte separator: at most `n` cuts are made, each at the
first occurrence of the separator in what is left; the remainder is the last element. -/
def genSplitLoop (sep : Char) : Nat → List Char → List (List Char)
  | 0, s => [s]
  | n + 1, s =>
    match IndexByte s sep with
    | none => [s]
    | some m => s.take m :: genSplitLoop sep n (s.drop (m + 1))

/-- Go `strings.Split(s, sep)` for a one-byte separator, that is `genSplit(s, sep, 0, -1)`:
`n = Count(s, sep) + 1`, clamped to `len(s) + 1`, and the loop runs while `i < n - 1`. -/
def Split (s : String) (sep : Char) : List String :=
  let n := min (Count s.data sep + 1) (s.data.length + 1)
  (genSplitLoop sep (n - 1) s.data).map String.mk

/-! ## `pkg/config/types.go` -/

/-- Go `interface{}` values of the `Custom` map: decoded YAML or JSON documents. Numbers keep
their literal text. -/
inductive Any where
  | null : Any
  | bool (b : Bool) : Any
  | number (text : String) : Any
  | string (s : String) : Any
  | array (xs : List Any) : Any
  | object (kvs : List (String × Any)) : Any

/-- Go `metav1.OwnerReference`. -/
structure OwnerReference where
  APIVersion : String
  Kind : String
  Name : String
  UID : String
  Controller : Option Bool
  BlockOwnerDeletion : Option Bool
  deriving DecidableEq, Repr

/-- The part of `metav1.ObjectMeta` the package reads. -/
structure ObjectMeta where
  Name : String
  Namespace : String
  OwnerReferences : List OwnerReference
  deriving DecidableEq, Repr

/-- Go `corev1.Pod`: type meta and object meta (spec and status are never read). -/
structure Pod where
  Kind : String
  APIVersion : String
  meta : ObjectMeta
  deriving DecidableEq, Repr

/-- Go `unstructured.Unstructured`: the `kind` and `apiVersion` entries of its map and what
its `metadata` entry holds. -/
structure Unstructured where
  Kind : String
  APIVersion : String
  meta : ObjectMeta
  deriving DecidableEq, Repr

/-- Go `runtime.Object`, restricted to the two dynamic types `findOwner` is called with. Both
implement `metav1.Object`. A nil interface is `none` of `Option RuntimeObject`. -/
inductive RuntimeObject where
  | pod (p : Pod) : RuntimeObject
  | unstructured (u : Unstructured) : RuntimeObject
  deriving DecidableEq, Repr

/-- Type `Metric` of `types.go`. -/
structure Metric where
  Help : String
  Labels : List String

/-- Type `Metrics` of `types.go`; a Go map is a partial function on its keys. -/
structure Metrics where
  Prefix : String
  Gauges : String → Option Metric

/-- Type `Config` of `types.go`. -/
structure Config where
  Name : String
  JobServiceAccount : String
  JobNodeSelector : String → Option String
  RunOnUnscheduledNodes : Bool
  CronExpression : String
  ReportDirectory : String
  ReportHistory : Int
  PodPoolSize : Int
  RunOnStartup : Bool
  Metrics : Metrics
  Custom : String → Option Any
  CallbackServiceName : String
  CallbackServicePort : Int
  Namespace : String
  JobPodTemplate : String
  Owner : Option RuntimeObject

/-- Method `(cfg *Config) PodName(nodeName, id)`: `nameParts[0]` is a checked index, `none`
stands for the panic of an index out of range; the format is `"%s-job-%s-%s"`. -/
def Config.PodName (cfg : Config) (nodeName : String) (id : String) : Option String :=
  let nameParts := Split nodeName '.'
  match nameParts[0]? with
  | none => none
  | some part => some (cfg.Name ++ "-job-" ++ part ++ "-" ++ id)

/-- Method `(m *Metrics) NameFor(name)`: the format is `"%s_%s"`. -/
def Metrics.NameFor (m : Metrics) (name : String) : String :=
  m.Prefix ++ "_" ++ name

/-! ## `pkg/config/config.go` -/

/-- Constant `EnvHostname`. -/
def EnvHostname : String := "HOSTNAME"

/-- Constant `EnvConfigMapName`. -/
def EnvConfigMapName : String := "CONFIG_MAP_NAME"

/-- Constant `PodTemplateName`. -/
def PodTemplateName : String := "pod-template.yaml"

/-- Constant `ConfigFileName`. -/
def ConfigFileName : String := "config.yaml"

/-- Go `client.ObjectKey`. -/
structure ObjectKey where
  Namespace : String
  Name : String
  deriving DecidableEq, Repr

/-- Go `corev1.ConfigMap`: its `Data` map. -/
structure ConfigMap where
  Data : String → Option String

/-- Go `client.Reader`. `Get(ctx, key, obj)` fills `obj` in place and returns an error; the
dynamic type of `obj` cannot change, so there is one function per type the package passes.
Each returns the object as the call leaves it and the error (`none` for a nil error, else
its message). -/
structure Reader where
  GetConfigMap : ObjectKey → ConfigMap → ConfigMap × Option String
  GetPod : ObjectKey → Pod → Pod × Option String
  GetUnstructured : ObjectKey → Unstructured → Unstructured × Option String

/-- The call `cl.Get(ctx, key, obj)` on a `runtime.Object`. -/
def Reader.Get (cl : Reader) (key : ObjectKey) : RuntimeObject → RuntimeObject × Option String
  | .pod p => ((RuntimeObject.pod (cl.GetPod key p).1), (cl.GetPod key p).2)
  | .unstructured u =>
    ((RuntimeObject.unstructured (cl.GetUnstructured key u).1), (cl.GetUnstructured key u).2)

/-- Method `GetOwnerReferences` of `metav1.Object`. -/
def RuntimeObject.GetOwnerReferences : RuntimeObject → List OwnerReference
  | .pod p => p.meta.OwnerReferences
  | .unstructured u => u.meta.OwnerReferences

/-- Method `GetName` of `metav1.Object`. -/
def RuntimeObject.GetName : RuntimeObject → String
  | .pod p => p.meta.Name
  | .unstructured u => u.meta.Name

/-- The zero value `&corev1.Pod{}`. -/
def emptyPod : Pod :=
  ⟨"", "", ⟨"", "", []⟩⟩

/-- The object `findOwner` builds for an owner reference: an `unstructured.Unstructured` whose
map holds only `kind` and `apiVersion`, taken from the reference. -/
def ownerRequest (oref : OwnerReference) : RuntimeObject :=
  .unstructured ⟨oref.Kind, oref.APIVersion, ⟨"", "", []⟩⟩

/-- One call of `cl.Get`: the key and the object it was given. -/
structure Fetch where
  key : ObjectKey
  obj : RuntimeObject
  deriving DecidableEq, Repr

/-- Function `findOwner(obj, namespace, name, cl)`. The recursion of the source has no bound,
so the model takes the number of `cl.Get` calls it may make: every level makes exactly one.
The first component is the list of calls made, in order; the second is the returned pair
(name, owner) with `none` for a nil owner, or `none` when the calls allowed are used up
before the function returns. The `range` loop returns in its first iteration, and the type
assertion to `metav1.Object` holds for both dynamic types. -/
def findOwner (cl : Reader) :
    Nat → RuntimeObject → String → String → List Fetch × Option (String × Option RuntimeObject)
  | 0, _, _, _ => ([], none)
  | fuel + 1, obj, ns, name =>
    match cl.Get ⟨ns, name⟩ obj with
    | (obj', none) =>
      match obj'.GetOwnerReferences with
      | oref :: _ =>
        (⟨⟨ns, name⟩, obj⟩ :: (findOwner cl fuel (ownerRequest oref) ns oref.Name).1,
          (findOwner cl fuel (ownerRequest oref) ns oref.Name).2)
      | [] => ([⟨⟨ns, name⟩, obj⟩], some (name, some obj'))
    | (_, some _) => ([⟨⟨ns, name⟩, obj⟩], some (name, none))

/-- What `config.go` takes from outside the repository: the process environment
(`os.Getenv`), the `%q` verb of `fmt` (`strconv.Quote`) and the decoder
`yaml.NewYAMLOrJSONDecoder(...).Decode` into a fresh `Config`. -/
structure Lib where
  Getenv : String → String
  Quote : String → String
  Decode : String → Except String Config

/-- Function `findPodOwner(namespace, cl)`: the owner `findOwner` returns for the pod named
by `HOSTNAME`; the outer `none` means `findOwner` does not return within `fuel` calls. -/
def findPodOwner (lib : Lib) (fuel : Nat) (ns : String) (cl : Reader) :
    Option (Option RuntimeObject) :=
  match (findOwner cl fuel (.pod emptyPod) ns (lib.Getenv EnvHostname)).2 with
  | none => none
  | some (_, owner) => some owner

/-- Function `configMap(namespace, cl)`: the ConfigMap as fetched and the wrapped error. -/
def configMap (lib : Lib) (ns : String) (cl : Reader) : ConfigMap × Option String :=
  match cl.GetConfigMap ⟨ns, lib.Getenv EnvConfigMapName⟩ ⟨fun _ => none⟩ with
  | (cm, some err) =>
    (cm, some ("error getting configmap " ++ lib.Quote EnvConfigMapName ++ ": " ++ err))
  | (cm, none) => (cm, none)

/-- Function `Get(namespace, cl)`: the returned pair (config, error), each `none` for nil;
the outer `none` means the call does not return within `fuel` fetches of owner resolution. -/
def Get (lib : Lib) (fuel : Nat) (ns : String) (cl : Reader) :
    Option (Option Config × Option String) :=
  match configMap lib ns cl with
  | (_, some err) => some (none, some err)
  | (cm, none) =>
    match cm.Data ConfigFileName with
    | some c =>
      match lib.Decode c with
      | .error err =>
        some (none, some ("could not read config file " ++ lib.Quote ConfigFileName
          ++ " in configmap " ++ lib.Quote (lib.Getenv EnvConfigMapName) ++ ": " ++ err))
      | .ok cfg =>
        match cm.Data PodTemplateName with
        | some t =>
          match findPodOwner lib fuel ns cl with
          | none => none
          | some owner =>
            some (some { cfg with JobPodTemplate := t, Namespace := ns, Owner := owner },
              none)
        | none =>
          some (none, some ("could not find pod template " ++ lib.Quote PodTemplateName
            ++ " in configmap " ++ lib.Quote (lib.Getenv EnvConfigMapName)))
    | none =>
      some (none, some ("could not find config file " ++ lib.Quote ConfigFileName
        ++ " in configmap " ++ lib.Quote (lib.Getenv EnvConfigMapName)))


/-! ## `pkg/http`: the callback server

`postserver.go` is not among the sources at hand; only its test is. The admission middleware
and the file handler are modelled from sections 4.2 and 6 of the specification. -/

/-- Go `http.StatusOK`. -/
def StatusOK : Nat := 200

/-- Go `http.StatusNotAcceptable`. -/
def StatusNotAcceptable : Nat := 406

/-- Modelled from the spec: the execution registry of section 4.1 as the admission check
reads it, `Has(node, executionID)`; its implementation is missing. -/
structure Cache where
  Has : String → String → Bool

/-- Modelled from the spec: a request to a callback route, with the inputs section 6 lists:
the path segments, the query parameter `name`, the `filename` attribute of the
`Content-Disposition` header, the `Content-Type` header (each `none` when absent) and the
body. -/
structure Request where
  node : String
  executionID : String
  queryName : Option String
  dispositionFilename : Option String
  contentType : Option String
  body : List UInt8

/-- Go `httptest.ResponseRecorder`: the status code and the body written. -/
structure ResponseRecorder where
  Code : Nat
  Body : String

/-- A Go `http.Handler`: it acts on its own state `σ` and on the response. -/
abbrev Handler (σ : Type) : Type :=
  Request → σ × ResponseRecorder → σ × ResponseRecorder

/-- The `FakeHandler` of the middleware test: its state is the number of requests served. -/
def fakeHandler : Handler Nat :=
  fun _ st => (st.1 + 1, st.2)

/-- Modelled from the spec: the admission middleware of section 4.2, whose source
(`PostServer.middleware`) is missing. A present registry that does not have (node,
executionID) gives the not-acceptable status and a body made of the fixed prefix
`errorMiddlewareNotAcceptable` and a detail the spec leaves open; the downstream handler is
not run. Otherwise the downstream handler is run. -/
def middleware {σ : Type} (cache : Option Cache) (errorMiddlewareNotAcceptable : String)
    (detail : Request → String) (next : Handler σ) : Handler σ :=
  fun r st =>
    match cache with
    | some c =>
      if c.Has r.node r.executionID then next r st
      else (st.1, ⟨StatusNotAcceptable, errorMiddlewareNotAcceptable ++ detail r⟩)
    | none => next r st

/-- Modelled from the spec: the content-type table of section 6 for generated file names. -/
def generatedExtension (contentType : Option String) : String :=
  if contentType = some "application/json" then ".json"
  else if contentType = some "text/plain" then ".txt"
  else ".file"

/-- Modelled from the spec: the file name precedence of section 4.2, first match wins; the
stem of a generated name is left open by the spec and is a parameter. -/
def chosenFileName (generated : String) (r : Request) : String :=
  match r.queryName with
  | some n => n
  | none =>
    match r.dispositionFilename with
    | some n => n
    | none => generated ++ generatedExtension r.contentType

/-- A file under the report directory: the execution's subdirectory, the file name and the
bytes. -/
structure StoredFile where
  directory : String
  name : String
  content : List UInt8

/-- What the file handler acts on: the files stored and the arrivals recorded with the
registry (execution, node, byte length). -/
structure Storage where
  files : List StoredFile
  received : List (String × String × Nat)

/-- Modelled from the spec: the file handler of section 4.2, whose source
(`PostServer.postFile`) is missing. It records the arrival when a registry is present,
stores the body under `reportPath/executionID/node-filename` and responds with success. -/
def postFile (reportPath : String) (cache : Option Cache) (generated : String) :
    Handler Storage :=
  fun r st =>
    let received :=
      match cache with
      | some _ => (r.executionID, r.node, r.body.length) :: st.1.received
      | none => st.1.received
    let file : StoredFile :=
      ⟨reportPath ++ "/" ++ r.executionID, r.node ++ "-" ++ chosenFileName generated r, r.body⟩
    (⟨file :: st.1.files, received⟩, ⟨StatusOK, st.2.Body⟩)

/-! ## Fixtures: the readers of `config_test.go` and a cyclic one -/

/-- A configuration with the given name and zero values elsewhere. -/
def namedConfig (name : String) : Config :=
  ⟨name, "", fun _ => none, false, "", "", 0, 0, false, ⟨"", fun _ => none⟩, fun _ => none,
    "", 0, "", "", none⟩

/-- An environment for the tests: pod `pod-1`, ConfigMap `cm-1`; the decoder accepts the
document `name: foo` of the tests and nothing else. -/
def testLib : Lib where
  Getenv := fun k =>
    if k = EnvHostname then "pod-1" else if k = EnvConfigMapName then "cm-1" else ""
  Quote := fun t => String.singleton (Char.ofNat 34) ++ t ++ String.singleton (Char.ofNat 34)
  Decode := fun c => if c = "name: foo" then .ok (namedConfig "foo") else .error "bad document"

/-- The ConfigMap data of the success tests. -/
def testData : String → Option String :=
  fun k =>
    if k = ConfigFileName then some "name: foo"
    else if k = PodTemplateName then some "kind: Pod"
    else none

/-- An owner reference with the given kind and name. -/
def refTo (kind name : String) : OwnerReference :=
  ⟨"apps/v1", kind, name, "", none, none⟩

/-- The reader of "should return a config with owner": the pod is owned by ReplicaSet `rs-1`,
which is owned by Deployment `deployment-1`, which has no owner. -/
def ownerReader : Reader where
  GetConfigMap := fun _ _ => (⟨testData⟩, none)
  GetPod := fun key p => (⟨p.Kind, p.APIVersion, ⟨key.Name, key.Namespace,
    [refTo "ReplicaSet" "rs-1", refTo "Job" "other"]⟩⟩, none)
  GetUnstructured := fun key u =>
    if key.Name = "rs-1" then
      (⟨u.Kind, u.APIVersion, ⟨key.Name, key.Namespace, [refTo "Deployment" "deployment-1"]⟩⟩,
        none)
    else (⟨u.Kind, u.APIVersion, ⟨key.Name, key.Namespace, []⟩⟩, none)

/-- The reader of "should return a config without owner": the pod is not found. -/
def noPodReader : Reader where
  GetConfigMap := fun _ _ => (⟨testData⟩, none)
  GetPod := fun _ p => (p, some "pod not found")
  GetUnstructured := fun _ u => (u, some "not found")

/-- A reader in which the ReplicaSet is missing: the pod is found, its owner is not. -/
def noReplicaSetReader : Reader where
  GetConfigMap := fun _ _ => (⟨testData⟩, none)
  GetPod := fun key p => (⟨p.Kind, p.APIVersion, ⟨key.Name, key.Namespace,
    [refTo "ReplicaSet" "rs-1"]⟩⟩, none)
  GetUnstructured := fun _ u => (u, some "not found")

/-- A reader whose every object names `loop` as its first owner: a cyclic ownership graph. -/
def loopReader : Reader where
  GetConfigMap := fun _ _ => (⟨testData⟩, none)
  GetPod := fun key p => (⟨p.Kind, p.APIVersion, ⟨key.Name, key.Namespace,
    [refTo "Pod" "loop"]⟩⟩, none)
  GetUnstructured := fun key u => (⟨u.Kind, u.APIVersion, ⟨key.Name, key.Namespace,
    [refTo "Pod" "loop"]⟩⟩, none)

/-- A request to the file route with a three-byte body. -/
def fileRequest (queryName dispositionFilename contentType : Option String) : Request :=
  ⟨"node-1", "exec-1", queryName, dispositionFilename, contentType, [102, 111, 111]⟩

/-- The names looked up in the owner test: the pod, its ReplicaSet, the Deployment. -/
def chainNames (i : Nat) : String :=
  ["pod-1", "rs-1", "deployment-1"].getD i ""

/-- The objects handed to the reader in the owner test. -/
def chainReqs (i : Nat) : RuntimeObject :=
  [RuntimeObject.pod emptyPod, ownerRequest (refTo "ReplicaSet" "rs-1"),
    ownerRequest (refTo "Deployment" "deployment-1")].getD i (RuntimeObject.pod emptyPod)

/-- The objects the reader returns in the owner test. -/
def chainObjs (i : Nat) : RuntimeObject :=
  (ownerReader.Get ⟨"ns", chainNames i⟩ (chainReqs i)).1

/-- The objects the reader without a ReplicaSet returns. -/
def brokenObjs (i : Nat) : RuntimeObject :=
  (noReplicaSetReader.Get ⟨"ns", chainNames i⟩ (chainReqs i)).1

/-- The reader of the owner test with the pod's second owner reference left out. -/
def singleOwnerReader : Reader where
  GetConfigMap := ownerReader.GetConfigMap
  GetPod := fun key p => (⟨p.Kind, p.APIVersion, ⟨key.Name, key.Namespace,
    [refTo "ReplicaSet" "rs-1"]⟩⟩, none)
  GetUnstructured := ownerReader.GetUnstructured

/-- A rank for the owner test: the pod is two hops from the root, `rs-1` one. -/
def ownerRank (obj : RuntimeObject) (name : String) : Nat :=
  match obj with
  | .pod _ => 2
  | .unstructured _ => if name = "rs-1" then 1 else 0

/-- The Deployment at the root of the owner test, as the reader returns it. -/
def testDeployment : RuntimeObject :=
  RuntimeObject.unstructured ⟨"Deployment", "apps/v1", ⟨"deployment-1", "ns", []⟩⟩

/-- A registry that knows no execution. -/
def emptyCache : Cache :=
  ⟨fun _ _ => false⟩

/-! ## Notions the statements use -/

/-- Hop `i` of a walk: the fetch of `names i` with request `reqs i` succeeds with `objs i`,
whose first owner reference gives the name and the request of hop `i + 1`. -/
def Linked (cl : Reader) (ns : String) (names : Nat → String)
    (reqs objs : Nat → RuntimeObject) (i : Nat) : Prop :=
  ∃ oref rest, cl.Get ⟨ns, names i⟩ (reqs i) = (objs i, none)
    ∧ (objs i).GetOwnerReferences = oref :: rest
    ∧ names (i + 1) = oref.Name ∧ reqs (i + 1) = ownerRequest oref

/-- The part of a node name before its first `.` (the whole name when it has none). -/
def firstSegment (nodeName : String) : String :=
  String.mk (nodeName.data.takeWhile (fun c => c != '.'))

/-- The checks `Get` makes before owner resolution can fail. -/
def CheckFails (lib : Lib) (cm : ConfigMap) (e₀ : Option String) : Prop :=
  e₀ ≠ none ∨ cm.Data ConfigFileName = none
    ∨ (∃ c e, cm.Data ConfigFileName = some c ∧ lib.Decode c = .error e)
    ∨ cm.Data PodTemplateName = none

/-- Field by field: the decoded document with namespace, pod template and owner attached. -/
def attach (d : Config) (ns t : String) (owner : Option RuntimeObject) : Config :=
  ⟨d.Name, d.JobServiceAccount, d.JobNodeSelector, d.RunOnUnscheduledNodes, d.CronExpression,
    d.ReportDirectory, d.ReportHistory, d.PodPoolSize, d.RunOnStartup, d.Metrics, d.Custom,
    d.CallbackServiceName, d.CallbackServicePort, ns, t, owner⟩

/-! ## Lemmas on splitting -/

theorem IndexByte_none_of_not_mem (s : List Char) (c : Char) (h : c ∉ s) :
    IndexByte s c = none := by
  induction s with
  | nil => rfl
  | cons x xs ih =>
    have hx : x ≠ c := fun e => h (by simp [e])
    have hxs : c ∉ xs := fun m => h (List.mem_cons_of_mem _ m)
    simp [IndexByte, hx, ih hxs]

theorem IndexByte_of_mem (s : List Char) (c : Char) (h : c ∈ s) :
    ∃ m, IndexByte s c = some m ∧ s.take m = s.takeWhile (fun x => x != c) := by
  induction s with
  | nil => simp at h
  | cons x xs ih =>
    by_cases hx : x = c
    · exact ⟨0, by simp [IndexByte, hx], by simp [hx]⟩
    · have hxs : c ∈ xs := by
        rcases List.mem_cons.mp h with e | m
        · exact absurd e.symm hx
        · exact m
      obtain ⟨m, hm, ht⟩ := ih hxs
      refine ⟨m + 1, by simp [IndexByte, hx, hm], ?_⟩
      simp [List.takeWhile_cons, hx, ht]

theorem takeWhile_ne_of_not_mem (s : List Char) (c : Char) (h : c ∉ s) :
    s.takeWhile (fun x => x != c) = s := by
  rw [List.takeWhile_eq_self_iff]
  intro x hx
  have : x ≠ c := fun e => h (e ▸ hx)
  simpa using this

/-- The first element of the split is the text before the first separator. -/
theorem Split_head (s : String) (sep : Char) :
    (Split s sep)[0]? = some (String.mk (s.data.takeWhile (fun x => x != sep))) := by
  unfold Split
  by_cases h : sep ∈ s.data
  · obtain ⟨m, hm, ht⟩ := IndexByte_of_mem s.data sep h
    have hc : 0 < Count s.data sep := List.count_pos_iff.mpr h
    have hl : 0 < s.data.length := List.length_pos_of_mem h
    obtain ⟨k, hk⟩ : ∃ k, min (Count s.data sep + 1) (s.data.length + 1) - 1 = k + 1 :=
      ⟨min (Count s.data sep + 1) (s.data.length + 1) - 2, by omega⟩
    show ((genSplitLoop sep (min (Count s.data sep + 1) (s.data.length + 1) - 1) s.data).map
      String.mk)[0]? = _
    rw [hk]
    simp [genSplitLoop, hm, ht]
  · have hc : Count s.data sep = 0 := List.count_eq_zero.mpr h
    simp [hc, genSplitLoop, takeWhile_ne_of_not_mem _ _ h]

theorem PodName_eq (cfg : Config) (nodeName id : String) :
    cfg.PodName nodeName id
      = some (cfg.Name ++ "-job-" ++ firstSegment nodeName ++ "-" ++ id) := by
  simp [Config.PodName, Split_head, firstSegment]

theorem takeWhile_append_sep (xs ys : List Char) (c : Char) (h : c ∉ xs) :
    (xs ++ c :: ys).takeWhile (fun x => x != c) = xs := by
  induction xs with
  | nil => simp
  | cons x xs ih =>
    have hx : x ≠ c := fun e => h (by simp [e])
    have hxs : c ∉ xs := fun m => h (List.mem_cons_of_mem _ m)
    simp [List.takeWhile_cons, hx, ih hxs]

theorem firstSegment_append_dot (a b : String) (h : '.' ∉ a.data) :
    firstSegment (a ++ "." ++ b) = a := by
  have e : (a ++ "." ++ b).data = a.data ++ '.' :: b.data := by
    simp [String.data_append]
  simp [firstSegment, e, takeWhile_append_sep _ _ _ h]

/-! ## `PodName` -/

/-- C1: for every configuration, `PodName(nodeName, id)` is `Name-job-seg-id` where `seg` is the
text of `nodeName` before its first `.`, which is the first element of the split on `.`; so
for `a` without a `.`, `PodName(a.b, id)` is `Name-job-a-id`, and the node name
`worker-1.cluster.local` with id `abc` gives `Name-job-worker-1-abc`. -/
theorem PodName_first_segment (cfg : Config) :
    (∀ nodeName id : String,
      cfg.PodName nodeName id
        = some (cfg.Name ++ "-job-" ++ firstSegment nodeName ++ "-" ++ id)
      ∧ (Split nodeName '.')[0]? = some (firstSegment nodeName))
    ∧ (∀ a b id : String, '.' ∉ a.data →
      cfg.PodName (a ++ "." ++ b) id = some (cfg.Name ++ "-job-" ++ a ++ "-" ++ id))
    ∧ cfg.PodName "worker-1.cluster.local" "abc" = some (cfg.Name ++ "-job-worker-1-abc") := by
  refine ⟨fun nodeName id => ⟨PodName_eq cfg nodeName id, Split_head nodeName '.'⟩, ?_, ?_⟩
  · intro a b id h
    rw [PodName_eq, firstSegment_append_dot a b h]
  · have e : firstSegment "worker-1.cluster.local" = "worker-1" := by decide
    rw [PodName_eq, e]
    simp only [String.append_assoc]
    rfl

/-- C1, at the node name of the specification. -/
theorem PodName_first_segment_witness :
    '.' ∉ "worker-1".data
    ∧ (namedConfig "ctl").PodName ("worker-1" ++ "." ++ "cluster.local") "abc"
        = some ("ctl" ++ "-job-" ++ "worker-1" ++ "-" ++ "abc") :=
  ⟨by decide,
    (PodName_first_segment (namedConfig "ctl")).2.1 "worker-1" "cluster.local" "abc"
      (by decide)⟩

/-! ## `findOwner` -/

theorem findOwner_fail (cl : Reader) (fuel : Nat) (obj : RuntimeObject) (ns name : String)
    (err : String) (h : (cl.Get ⟨ns, name⟩ obj).2 = some err) :
    findOwner cl (fuel + 1) obj ns name = ([⟨⟨ns, name⟩, obj⟩], some (name, none)) := by
  rcases hg : cl.Get ⟨ns, name⟩ obj with ⟨o, e⟩
  rw [hg] at h
  simp only at h
  subst h
  simp [findOwner, hg]

theorem findOwner_root (cl : Reader) (fuel : Nat) (obj obj' : RuntimeObject) (ns name : String)
    (hget : cl.Get ⟨ns, name⟩ obj = (obj', none)) (hrefs : obj'.GetOwnerReferences = []) :
    findOwner cl (fuel + 1) obj ns name = ([⟨⟨ns, name⟩, obj⟩], some (name, some obj')) := by
  simp [findOwner, hget, hrefs]

theorem findOwner_step (cl : Reader) (fuel : Nat) (obj obj' : RuntimeObject) (ns name : String)
    (oref : OwnerReference) (rest : List OwnerReference)
    (hget : cl.Get ⟨ns, name⟩ obj = (obj', none))
    (hrefs : obj'.GetOwnerReferences = oref :: rest) :
    findOwner cl (fuel + 1) obj ns name
      = (⟨⟨ns, name⟩, obj⟩ :: (findOwner cl fuel (ownerRequest oref) ns oref.Name).1,
          (findOwner cl fuel (ownerRequest oref) ns oref.Name).2) := by
  simp [findOwner, hget, hrefs]

/-- Following `k` linked hops costs `k` fetches and continues at hop `k`. -/
theorem findOwner_follow (cl : Reader) (ns : String) (k : Nat) :
    ∀ (names : Nat → String) (reqs objs : Nat → RuntimeObject),
      (∀ i, i < k → Linked cl ns names reqs objs i) →
      ∀ fuel, (findOwner cl (fuel + k) (reqs 0) ns (names 0)).2
        = (findOwner cl fuel (reqs k) ns (names k)).2 := by
  induction k with
  | zero => intro names reqs objs _ fuel; rfl
  | succ k ih =>
    intro names reqs objs h fuel
    obtain ⟨oref, rest, hget, hrefs, hname, hreq⟩ := h 0 (Nat.succ_pos k)
    have hshift : ∀ i, i < k →
        Linked cl ns (fun j => names (j + 1)) (fun j => reqs (j + 1)) (fun j => objs (j + 1)) i :=
      fun i hi => h (i + 1) (Nat.succ_lt_succ hi)
    have := ih (fun j => names (j + 1)) (fun j => reqs (j + 1)) (fun j => objs (j + 1))
      hshift fuel
    simp only [Nat.zero_add] at this
    rw [← Nat.add_assoc, findOwner_step cl (fuel + k) _ _ ns _ oref rest hget hrefs]
    simp only
    rw [← hname, ← hreq, this]

/-- C2: in an ownership chain o_0, ..., o_n whose fetches all succeed, where each o_i with
i < n has o_(i+1) as its first owner reference and o_n has no owner references, `findOwner`
started at o_0 returns the root o_n together with the name o_n was fetched by, as soon as it
may make the n + 1 fetches of the chain. -/
theorem findOwner_returns_root (cl : Reader) (ns : String) (names : Nat → String)
    (reqs objs : Nat → RuntimeObject) (n : Nat)
    (hchain : ∀ i, i < n → Linked cl ns names reqs objs i)
    (hroot : cl.Get ⟨ns, names n⟩ (reqs n) = (objs n, none))
    (hnone : (objs n).GetOwnerReferences = [])
    (fuel : Nat) (hfuel : n + 1 ≤ fuel) :
    (findOwner cl fuel (reqs 0) ns (names 0)).2 = some (names n, some (objs n)) := by
  obtain ⟨d, rfl⟩ : ∃ d, fuel = (d + 1) + n := ⟨fuel - (n + 1), by omega⟩
  rw [findOwner_follow cl ns n names reqs objs hchain (d + 1),
    findOwner_root cl d _ _ ns _ hroot hnone]

theorem ownerReader_linked (i : Nat) (hi : i < 2) :
    Linked ownerReader "ns" chainNames chainReqs chainObjs i := by
  interval_cases i
  · exact ⟨refTo "ReplicaSet" "rs-1", [refTo "Job" "other"], by decide, by decide, by decide,
      by decide⟩
  · exact ⟨refTo "Deployment" "deployment-1", [], by decide, by decide, by decide, by decide⟩

/-- C2, on the chain pod, ReplicaSet, Deployment of the owner test. -/
theorem findOwner_returns_root_witness :
    (findOwner ownerReader 3 (RuntimeObject.pod emptyPod) "ns" "pod-1").2
      = some ("deployment-1", some (RuntimeObject.unstructured
          ⟨"Deployment", "apps/v1", ⟨"deployment-1", "ns", []⟩⟩)) :=
  findOwner_returns_root ownerReader "ns" chainNames chainReqs chainObjs 2
    ownerReader_linked (by decide) (by decide) 3 (by decide)

/-- C3: when the fetch at hop k fails, after k hops whose fetches succeeded and led by the
first owner reference to the next hop, `findOwner` returns a nil owner (no error, no object
fetched on the way), and the name it returns is the one whose fetch failed. -/
theorem findOwner_fetch_failure (cl : Reader) (ns : String) (names : Nat → String)
    (reqs objs : Nat → RuntimeObject) (k : Nat)
    (hchain : ∀ i, i < k → Linked cl ns names reqs objs i)
    (err : String) (hfail : (cl.Get ⟨ns, names k⟩ (reqs k)).2 = some err)
    (fuel : Nat) (hfuel : k + 1 ≤ fuel) :
    (findOwner cl fuel (reqs 0) ns (names 0)).2 = some (names k, none) := by
  obtain ⟨d, rfl⟩ : ∃ d, fuel = (d + 1) + k := ⟨fuel - (k + 1), by omega⟩
  rw [findOwner_follow cl ns k names reqs objs hchain (d + 1),
    findOwner_fail cl d _ ns _ err hfail]

theorem noReplicaSetReader_linked (i : Nat) (hi : i < 1) :
    Linked noReplicaSetReader "ns" chainNames chainReqs brokenObjs i := by
  interval_cases i
  exact ⟨refTo "ReplicaSet" "rs-1", [], by decide, by decide, by decide, by decide⟩

/-- C3, with the pod found and its ReplicaSet missing (a failure at hop 1). -/
theorem findOwner_fetch_failure_witness :
    (findOwner noReplicaSetReader 2 (RuntimeObject.pod emptyPod) "ns" "pod-1").2
      = some ("rs-1", none) :=
  findOwner_fetch_failure noReplicaSetReader "ns" chainNames chainReqs brokenObjs 1
    noReplicaSetReader_linked "not found" (by decide) 2 (by decide)

/-- C4: when the fetch of an object succeeds and the object has no owner references,
`findOwner` returns that object as the owner together with the name it was looked up by,
and the fetches it made are that single one. -/
theorem findOwner_ownerless (cl : Reader) (ns name : String) (obj obj' : RuntimeObject)
    (hget : cl.Get ⟨ns, name⟩ obj = (obj', none)) (hrefs : obj'.GetOwnerReferences = [])
    (fuel : Nat) :
    findOwner cl (fuel + 1) obj ns name = ([⟨⟨ns, name⟩, obj⟩], some (name, some obj')) :=
  findOwner_root cl fuel obj obj' ns name hget hrefs

/-- C4, on the Deployment of the owner test. -/
theorem findOwner_ownerless_witness :
    findOwner ownerReader 1 (ownerRequest (refTo "Deployment" "deployment-1")) "ns"
        "deployment-1"
      = ([⟨⟨"ns", "deployment-1"⟩, ownerRequest (refTo "Deployment" "deployment-1")⟩],
          some ("deployment-1", some (RuntimeObject.unstructured
            ⟨"Deployment", "apps/v1", ⟨"deployment-1", "ns", []⟩⟩))) :=
  findOwner_ownerless ownerReader "ns" "deployment-1" _ _ (by decide) (by decide) 0

theorem findOwner_first_fetch (cl : Reader) (fuel : Nat) (obj : RuntimeObject)
    (ns name : String) :
    (findOwner cl (fuel + 1) obj ns name).1[0]? = some ⟨⟨ns, name⟩, obj⟩ := by
  rcases hg : cl.Get ⟨ns, name⟩ obj with ⟨o, e⟩
  cases e with
  | some e => rw [findOwner_fail cl fuel obj ns name e (by rw [hg])]; rfl
  | none =>
    cases hr : o.GetOwnerReferences with
    | nil => rw [findOwner_root cl fuel obj o ns name hg hr]; rfl
    | cons oref rest => rw [findOwner_step cl fuel obj o ns name oref rest hg hr]; simp

/-- Resolution from an unstructured request reads the cluster only through `GetUnstructured`. -/
theorem findOwner_unstructured_congr (cl₁ cl₂ : Reader)
    (h : cl₁.GetUnstructured = cl₂.GetUnstructured) (ns : String) :
    ∀ (fuel : Nat) (u : Unstructured) (name : String),
      findOwner cl₁ fuel (RuntimeObject.unstructured u) ns name
        = findOwner cl₂ fuel (RuntimeObject.unstructured u) ns name := by
  intro fuel
  induction fuel with
  | zero => intro u name; rfl
  | succ fuel ih =>
    intro u name
    have hg : cl₁.Get ⟨ns, name⟩ (RuntimeObject.unstructured u)
        = cl₂.Get ⟨ns, name⟩ (RuntimeObject.unstructured u) := by
      simp [Reader.Get, h]
    rcases hc : cl₂.Get ⟨ns, name⟩ (RuntimeObject.unstructured u) with ⟨o, e⟩
    rw [hc] at hg
    cases e with
    | some e =>
      rw [findOwner_fail cl₁ fuel _ ns name e (by rw [hg]),
        findOwner_fail cl₂ fuel _ ns name e (by rw [hc])]
    | none =>
      cases hr : o.GetOwnerReferences with
      | nil =>
        rw [findOwner_root cl₁ fuel _ o ns name hg hr, findOwner_root cl₂ fuel _ o ns name hc hr]
      | cons oref rest =>
        rw [findOwner_step cl₁ fuel _ o ns name oref rest hg hr,
          findOwner_step cl₂ fuel _ o ns name oref rest hc hr]
        unfold ownerRequest
        rw [ih]

/-- C5: when a fetched object has owner references, `findOwner` recurses on the first one
only: the call made next is for an unstructured object with that reference's kind and
apiVersion, by that reference's name, in the same namespace; and two resolutions whose
fetched objects have owner-reference lists with the same first element return the same
result, whatever the other references are. -/
theorem findOwner_first_reference_only (ns : String) :
    (∀ (cl : Reader) (fuel : Nat) (obj obj' : RuntimeObject) (name : String)
        (oref : OwnerReference) (rest : List OwnerReference),
        cl.Get ⟨ns, name⟩ obj = (obj', none) → obj'.GetOwnerReferences = oref :: rest →
        (findOwner cl (fuel + 1) obj ns name).2
            = (findOwner cl fuel
                (RuntimeObject.unstructured ⟨oref.Kind, oref.APIVersion, ⟨"", "", []⟩⟩)
                ns oref.Name).2
          ∧ (findOwner cl (fuel + 2) obj ns name).1[1]?
            = some ⟨⟨ns, oref.Name⟩,
                RuntimeObject.unstructured ⟨oref.Kind, oref.APIVersion, ⟨"", "", []⟩⟩⟩)
    ∧ (∀ (cl₁ cl₂ : Reader) (fuel : Nat) (obj₁ obj₂ o₁ o₂ : RuntimeObject)
        (name₁ name₂ : String) (oref : OwnerReference) (rest₁ rest₂ : List OwnerReference),
        cl₁.GetUnstructured = cl₂.GetUnstructured →
        cl₁.Get ⟨ns, name₁⟩ obj₁ = (o₁, none) → cl₂.Get ⟨ns, name₂⟩ obj₂ = (o₂, none) →
        o₁.GetOwnerReferences = oref :: rest₁ → o₂.GetOwnerReferences = oref :: rest₂ →
        (findOwner cl₁ fuel obj₁ ns name₁).2 = (findOwner cl₂ fuel obj₂ ns name₂).2) := by
  constructor
  · intro cl fuel obj obj' name oref rest hget hrefs
    constructor
    · rw [findOwner_step cl fuel obj obj' ns name oref rest hget hrefs]
      rfl
    · rw [findOwner_step cl (fuel + 1) obj obj' ns name oref rest hget hrefs]
      simpa [ownerRequest] using findOwner_first_fetch cl fuel (ownerRequest oref) ns oref.Name
  · intro cl₁ cl₂ fuel obj₁ obj₂ o₁ o₂ name₁ name₂ oref rest₁ rest₂ h hg₁ hg₂ hr₁ hr₂
    cases fuel with
    | zero => rfl
    | succ fuel =>
      rw [findOwner_step cl₁ fuel obj₁ o₁ ns name₁ oref rest₁ hg₁ hr₁,
        findOwner_step cl₂ fuel obj₂ o₂ ns name₂ oref rest₂ hg₂ hr₂]
      unfold ownerRequest
      rw [findOwner_unstructured_congr cl₁ cl₂ h ns]

/-- C5, on the pod of the owner test with and without a second owner reference. -/
theorem findOwner_first_reference_only_witness :
    (findOwner ownerReader 3 (RuntimeObject.pod emptyPod) "ns" "pod-1").2
      = (findOwner singleOwnerReader 3 (RuntimeObject.pod emptyPod) "ns" "pod-1").2 :=
  (findOwner_first_reference_only "ns").2 ownerReader singleOwnerReader 3
    (RuntimeObject.pod emptyPod) (RuntimeObject.pod emptyPod)
    (ownerReader.Get ⟨"ns", "pod-1"⟩ (RuntimeObject.pod emptyPod)).1
    (singleOwnerReader.Get ⟨"ns", "pod-1"⟩ (RuntimeObject.pod emptyPod)).1 "pod-1" "pod-1"
    (refTo "ReplicaSet" "rs-1") [refTo "Job" "other"] [] rfl (by decide) (by decide)
    (by decide) (by decide)

theorem findOwner_loopReader (ns : String) :
    ∀ (fuel : Nat) (obj : RuntimeObject) (name : String),
      (findOwner loopReader fuel obj ns name).2 = none
        ∧ (findOwner loopReader fuel obj ns name).1.length = fuel := by
  intro fuel
  induction fuel with
  | zero => intro obj name; exact ⟨rfl, rfl⟩
  | succ fuel ih =>
    intro obj name
    have hstep : findOwner loopReader (fuel + 1) obj ns name
        = (⟨⟨ns, name⟩, obj⟩
            :: (findOwner loopReader fuel (ownerRequest (refTo "Pod" "loop")) ns "loop").1,
          (findOwner loopReader fuel (ownerRequest (refTo "Pod" "loop")) ns "loop").2) := by
      cases obj with
      | pod p => exact findOwner_step loopReader fuel _ _ ns name _ [] rfl rfl
      | unstructured u => exact findOwner_step loopReader fuel _ _ ns name _ [] rfl rfl
    rw [hstep]
    exact ⟨(ih _ _).1, by simp [(ih _ _).2]⟩

/-- C6 fails on a cyclic ownership graph: with a reader whose every object names `loop` as
its first owner, resolution of the current pod makes as many fetches as it is allowed,
whatever that number, and never returns. -/
theorem findOwner_cycle_never_returns :
    (∀ fuel : Nat,
      (findOwner loopReader fuel (RuntimeObject.pod emptyPod) "ns" "pod-1").2 = none)
    ∧ (∀ fuel : Nat,
      (findOwner loopReader fuel (RuntimeObject.pod emptyPod) "ns" "pod-1").1.length = fuel) :=
  ⟨fun fuel => (findOwner_loopReader "ns" fuel _ _).1,
    fun fuel => (findOwner_loopReader "ns" fuel _ _).2⟩

/-- C6, amended: when the ownership links a reader serves are well-founded, that is some
rank on (request, name) drops from every successfully fetched object with owner references
to its first owner reference, `findOwner` returns for every start, after at most rank + 1
fetches. -/
theorem findOwner_terminates_of_rank (cl : Reader) (ns : String)
    (rank : RuntimeObject → String → Nat)
    (hrank : ∀ (obj obj' : RuntimeObject) (name : String) (oref : OwnerReference)
      (rest : List OwnerReference),
      cl.Get ⟨ns, name⟩ obj = (obj', none) → obj'.GetOwnerReferences = oref :: rest →
      rank (ownerRequest oref) oref.Name < rank obj name) :
    ∀ (fuel : Nat) (obj : RuntimeObject) (name : String), rank obj name + 1 ≤ fuel →
      (findOwner cl fuel obj ns name).2 ≠ none
        ∧ (findOwner cl fuel obj ns name).1.length ≤ rank obj name + 1 := by
  intro fuel
  induction fuel with
  | zero => intro obj name h; omega
  | succ fuel ih =>
    intro obj name h
    rcases hg : cl.Get ⟨ns, name⟩ obj with ⟨o, e⟩
    cases e with
    | some e =>
      rw [findOwner_fail cl fuel obj ns name e (by rw [hg])]
      exact ⟨by simp, by simp⟩
    | none =>
      cases hr : o.GetOwnerReferences with
      | nil =>
        rw [findOwner_root cl fuel obj o ns name hg hr]
        exact ⟨by simp, by simp⟩
      | cons oref rest =>
        have hlt := hrank obj o name oref rest hg hr
        have := ih (ownerRequest oref) oref.Name (by omega)
        rw [findOwner_step cl fuel obj o ns name oref rest hg hr]
        refine ⟨this.1, ?_⟩
        simp only [List.length_cons]
        omega

theorem ownerRank_drops (obj obj' : RuntimeObject) (name : String) (oref : OwnerReference)
    (rest : List OwnerReference)
    (hget : ownerReader.Get ⟨"ns", name⟩ obj = (obj', none))
    (hrefs : obj'.GetOwnerReferences = oref :: rest) :
    ownerRank (ownerRequest oref) oref.Name < ownerRank obj name := by
  cases obj with
  | pod p =>
    obtain rfl : obj' = _ := (congrArg Prod.fst hget).symm
    simp only [Reader.Get, ownerReader, RuntimeObject.GetOwnerReferences, List.cons.injEq]
      at hrefs
    obtain ⟨rfl, -⟩ := hrefs
    show (if "rs-1" = "rs-1" then 1 else 0) < 2
    decide
  | unstructured u =>
    obtain rfl : obj' = _ := (congrArg Prod.fst hget).symm
    by_cases hn : name = "rs-1"
    · subst hn
      simp only [Reader.Get, ownerReader, RuntimeObject.GetOwnerReferences, if_true,
        List.cons.injEq] at hrefs
      obtain ⟨rfl, -⟩ := hrefs
      show (if "deployment-1" = "rs-1" then 1 else 0) < (if "rs-1" = "rs-1" then 1 else 0)
      decide
    · simp [Reader.Get, ownerReader, RuntimeObject.GetOwnerReferences, hn] at hrefs

/-- C6 amended, on the acyclic chain of the owner test. -/
theorem findOwner_terminates_of_rank_witness :
    (findOwner ownerReader 3 (RuntimeObject.pod emptyPod) "ns" "pod-1").2 ≠ none
      ∧ (findOwner ownerReader 3 (RuntimeObject.pod emptyPod) "ns" "pod-1").1.length ≤ 2 + 1 :=
  findOwner_terminates_of_rank ownerReader "ns" ownerRank ownerRank_drops 3
    (RuntimeObject.pod emptyPod) "pod-1" (by decide)

/-! ## `Get` -/

theorem Get_of_checks (lib : Lib) (fuel : Nat) (ns : String) (cl : Reader) (cm : ConfigMap)
    (c t : String) (d : Config)
    (h1 : cl.GetConfigMap ⟨ns, lib.Getenv EnvConfigMapName⟩ ⟨fun _ => none⟩ = (cm, none))
    (h2 : cm.Data ConfigFileName = some c) (h3 : lib.Decode c = .ok d)
    (h4 : cm.Data PodTemplateName = some t) :
    Get lib fuel ns cl
      = (findPodOwner lib fuel ns cl).map (fun owner => (some (attach d ns t owner), none)) := by
  simp only [Get, configMap, h1, h2, h3, h4]
  cases findPodOwner lib fuel ns cl <;> rfl

theorem findPodOwner_eq (lib : Lib) (fuel : Nat) (ns : String) (cl : Reader) :
    findPodOwner lib fuel ns cl
      = ((findOwner cl fuel (RuntimeObject.pod emptyPod) ns (lib.Getenv EnvHostname)).2).map
          (fun r => r.2) := by
  unfold findPodOwner
  rcases (findOwner cl fuel (RuntimeObject.pod emptyPod) ns (lib.Getenv EnvHostname)).2
    with _ | ⟨name, owner⟩ <;> rfl

theorem Get_error_configmap (lib : Lib) (fuel : Nat) (ns : String) (cl : Reader)
    (cm : ConfigMap) (e : String)
    (hcm : cl.GetConfigMap ⟨ns, lib.Getenv EnvConfigMapName⟩ ⟨fun _ => none⟩ = (cm, some e)) :
    Get lib fuel ns cl = some (none,
      some ("error getting configmap " ++ lib.Quote EnvConfigMapName ++ ": " ++ e)) := by
  simp [Get, configMap, hcm]

theorem Get_error_no_config (lib : Lib) (fuel : Nat) (ns : String) (cl : Reader)
    (cm : ConfigMap)
    (hcm : cl.GetConfigMap ⟨ns, lib.Getenv EnvConfigMapName⟩ ⟨fun _ => none⟩ = (cm, none))
    (h2 : cm.Data ConfigFileName = none) :
    Get lib fuel ns cl = some (none,
      some ("could not find config file " ++ lib.Quote ConfigFileName
        ++ " in configmap " ++ lib.Quote (lib.Getenv EnvConfigMapName))) := by
  simp [Get, configMap, hcm, h2]

theorem Get_error_decode (lib : Lib) (fuel : Nat) (ns : String) (cl : Reader)
    (cm : ConfigMap) (c e : String)
    (hcm : cl.GetConfigMap ⟨ns, lib.Getenv EnvConfigMapName⟩ ⟨fun _ => none⟩ = (cm, none))
    (h2 : cm.Data ConfigFileName = some c) (h3 : lib.Decode c = .error e) :
    Get lib fuel ns cl = some (none,
      some ("could not read config file " ++ lib.Quote ConfigFileName
        ++ " in configmap " ++ lib.Quote (lib.Getenv EnvConfigMapName) ++ ": " ++ e)) := by
  simp [Get, configMap, hcm, h2, h3]

theorem Get_error_no_template (lib : Lib) (fuel : Nat) (ns : String) (cl : Reader)
    (cm : ConfigMap) (c : String) (d : Config)
    (hcm : cl.GetConfigMap ⟨ns, lib.Getenv EnvConfigMapName⟩ ⟨fun _ => none⟩ = (cm, none))
    (h2 : cm.Data ConfigFileName = some c) (h3 : lib.Decode c = .ok d)
    (h4 : cm.Data PodTemplateName = none) :
    Get lib fuel ns cl = some (none,
      some ("could not find pod template " ++ lib.Quote PodTemplateName
        ++ " in configmap " ++ lib.Quote (lib.Getenv EnvConfigMapName))) := by
  simp [Get, configMap, hcm, h2, h3, h4]

theorem testChecks_pass : ¬ CheckFails testLib ⟨testData⟩ none := by
  rintro (h | h | ⟨c, e, hc, he⟩ | h)
  · exact h rfl
  · exact absurd h (by decide)
  · have h' : testData ConfigFileName = some "name: foo" := by decide
    have hc' : testData ConfigFileName = some c := hc
    rw [h'] at hc'
    obtain rfl := Option.some.inj hc'
    simp [testLib] at he
  · exact absurd h (by decide)

/-- C7 fails on a cyclic ownership graph: all four checks pass, yet `Get` does not return,
however many fetches owner resolution may make. -/
theorem Get_never_returns_on_cycle :
    loopReader.GetConfigMap ⟨"ns", testLib.Getenv EnvConfigMapName⟩ ⟨fun _ => none⟩
        = (⟨testData⟩, none)
      ∧ ¬ CheckFails testLib ⟨testData⟩ none
      ∧ ∀ fuel : Nat, Get testLib fuel "ns" loopReader = none := by
  refine ⟨rfl, testChecks_pass, ?_⟩
  · intro fuel
    rw [Get_of_checks testLib fuel "ns" loopReader ⟨testData⟩ "name: foo" "kind: Pod"
      (namedConfig "foo") rfl (by decide) (by simp [testLib]) (by decide),
      findPodOwner_eq, (findOwner_loopReader "ns" fuel _ _).1]
    rfl

/-- C7, amended: `Get` returns a nil config and an error exactly when one of the four checks
fails, with the error of the first failing check in the order ConfigMap fetch, `config.yaml`
key, decoding, `pod-template.yaml` key; that holds whatever owner resolution does. When all
four pass and owner resolution of the current pod returns (with an owner or, after a failed
lookup, with none), `Get` returns a non-nil config and a nil error. -/
theorem Get_errors_in_order (lib : Lib) (fuel : Nat) (ns : String) (cl : Reader)
    (cm : ConfigMap) (e₀ : Option String)
    (hcm : cl.GetConfigMap ⟨ns, lib.Getenv EnvConfigMapName⟩ ⟨fun _ => none⟩ = (cm, e₀)) :
    (∀ e, e₀ = some e →
      Get lib fuel ns cl = some (none,
        some ("error getting configmap " ++ lib.Quote EnvConfigMapName ++ ": " ++ e)))
    ∧ (e₀ = none → cm.Data ConfigFileName = none →
      Get lib fuel ns cl = some (none,
        some ("could not find config file " ++ lib.Quote ConfigFileName
          ++ " in configmap " ++ lib.Quote (lib.Getenv EnvConfigMapName))))
    ∧ (e₀ = none → ∀ c e, cm.Data ConfigFileName = some c → lib.Decode c = .error e →
      Get lib fuel ns cl = some (none,
        some ("could not read config file " ++ lib.Quote ConfigFileName
          ++ " in configmap " ++ lib.Quote (lib.Getenv EnvConfigMapName) ++ ": " ++ e)))
    ∧ (e₀ = none → ∀ c d, cm.Data ConfigFileName = some c → lib.Decode c = .ok d →
      cm.Data PodTemplateName = none →
      Get lib fuel ns cl = some (none,
        some ("could not find pod template " ++ lib.Quote PodTemplateName
          ++ " in configmap " ++ lib.Quote (lib.Getenv EnvConfigMapName))))
    ∧ (¬ CheckFails lib cm e₀ → ∀ owner, findPodOwner lib fuel ns cl = some owner →
      ∃ cfg, Get lib fuel ns cl = some (some cfg, none))
    ∧ (∀ res, Get lib fuel ns cl = some res →
      (res.1 = none ∧ res.2 ≠ none ∧ CheckFails lib cm e₀)
        ∨ (res.1 ≠ none ∧ res.2 = none ∧ ¬ CheckFails lib cm e₀)) := by
  have A : ∀ e, e₀ = some e →
      Get lib fuel ns cl = some (none,
        some ("error getting configmap " ++ lib.Quote EnvConfigMapName ++ ": " ++ e)) := by
    intro e he
    subst he
    exact Get_error_configmap lib fuel ns cl cm e hcm
  have B : e₀ = none → cm.Data ConfigFileName = none →
      Get lib fuel ns cl = some (none,
        some ("could not find config file " ++ lib.Quote ConfigFileName
          ++ " in configmap " ++ lib.Quote (lib.Getenv EnvConfigMapName))) := by
    intro he h2
    subst he
    exact Get_error_no_config lib fuel ns cl cm hcm h2
  have C : e₀ = none → ∀ c e, cm.Data ConfigFileName = some c → lib.Decode c = .error e →
      Get lib fuel ns cl = some (none,
        some ("could not read config file " ++ lib.Quote ConfigFileName
          ++ " in configmap " ++ lib.Quote (lib.Getenv EnvConfigMapName) ++ ": " ++ e)) := by
    intro he c e h2 h3
    subst he
    exact Get_error_decode lib fuel ns cl cm c e hcm h2 h3
  have D : e₀ = none → ∀ c d, cm.Data ConfigFileName = some c → lib.Decode c = .ok d →
      cm.Data PodTemplateName = none →
      Get lib fuel ns cl = some (none,
        some ("could not find pod template " ++ lib.Quote PodTemplateName
          ++ " in configmap " ++ lib.Quote (lib.Getenv EnvConfigMapName))) := by
    intro he c d h2 h3 h4
    subst he
    exact Get_error_no_template lib fuel ns cl cm c d hcm h2 h3 h4
  have E : ¬ CheckFails lib cm e₀ → ∀ owner, findPodOwner lib fuel ns cl = some owner →
      Get lib fuel ns cl ≠ none ∧ ∀ res, Get lib fuel ns cl = some res →
        res.1 ≠ none ∧ res.2 = none := by
    intro hn owner ho
    have he : e₀ = none := by
      by_contra h
      exact hn (Or.inl h)
    subst he
    rcases h2 : cm.Data ConfigFileName with _ | c
    · exact absurd (Or.inr (Or.inl h2)) hn
    rcases h3 : lib.Decode c with e | d
    · exact absurd (Or.inr (Or.inr (Or.inl ⟨c, e, h2, h3⟩))) hn
    rcases h4 : cm.Data PodTemplateName with _ | t
    · exact absurd (Or.inr (Or.inr (Or.inr h4))) hn
    rw [Get_of_checks lib fuel ns cl cm c t d hcm h2 h3 h4, ho]
    refine ⟨by simp, ?_⟩
    intro res hres
    simp only [Option.map_some', Option.some.injEq] at hres
    subst hres
    exact ⟨by simp, rfl⟩
  refine ⟨A, B, C, D, ?_, ?_⟩
  · intro hn owner ho
    obtain ⟨hne, hres⟩ := E hn owner ho
    rcases hg : Get lib fuel ns cl with _ | ⟨cfg, err⟩
    · exact absurd hg hne
    · obtain ⟨h1, h2⟩ := hres _ hg
      simp only at h1 h2
      subst h2
      rcases cfg with _ | cfg
      · exact absurd rfl h1
      · exact ⟨cfg, rfl⟩
  · intro res hres
    by_cases hf : CheckFails lib cm e₀
    · left
      have key : ∃ msg, Get lib fuel ns cl = some (none, some msg) := by
        rcases e₀ with _ | e
        · rcases h2 : cm.Data ConfigFileName with _ | c
          · exact ⟨_, B rfl h2⟩
          rcases h3 : lib.Decode c with e | d
          · exact ⟨_, C rfl c e h2 h3⟩
          rcases h4 : cm.Data PodTemplateName with _ | t
          · exact ⟨_, D rfl c d h2 h3 h4⟩
          rcases hf with h | h | ⟨c', e', hc', he'⟩ | h
          · exact absurd rfl h
          · rw [h2] at h; exact absurd h (by simp)
          · rw [h2] at hc'
            obtain rfl := Option.some.inj hc'
            rw [h3] at he'
            exact absurd he' (by simp)
          · rw [h4] at h; exact absurd h (by simp)
        · exact ⟨_, A e rfl⟩
      obtain ⟨msg, hmsg⟩ := key
      rw [hmsg] at hres
      obtain rfl := Option.some.inj hres
      exact ⟨rfl, by simp, hf⟩
    · right
      have he : e₀ = none := by
        by_contra h
        exact hf (Or.inl h)
      subst he
      rcases h2 : cm.Data ConfigFileName with _ | c
      · exact absurd (Or.inr (Or.inl h2)) hf
      rcases h3 : lib.Decode c with e | d
      · exact absurd (Or.inr (Or.inr (Or.inl ⟨c, e, h2, h3⟩))) hf
      rcases h4 : cm.Data PodTemplateName with _ | t
      · exact absurd (Or.inr (Or.inr (Or.inr h4))) hf
      rw [Get_of_checks lib fuel ns cl cm c t d hcm h2 h3 h4] at hres
      rcases ho : findPodOwner lib fuel ns cl with _ | owner
      · rw [ho] at hres
        simp at hres
      · rw [ho] at hres
        simp only [Option.map_some', Option.some.injEq] at hres
        subst hres
        exact ⟨by simp, rfl, hf⟩

/-- C7 amended, on the test "should return a config without owner": the pod lookup fails and
`Get` still returns a config. -/
theorem Get_errors_in_order_witness :
    ∃ cfg, Get testLib 1 "ns" noPodReader = some (some cfg, none) :=
  (Get_errors_in_order testLib 1 "ns" noPodReader ⟨testData⟩ none rfl).2.2.2.2.1
    testChecks_pass none (by decide)

/-- C8: whenever `Get` returns a config, it is the decoded `config.yaml` document with three
fields set after decoding and every other field as decoded: `Namespace` is the namespace
argument, `JobPodTemplate` is the `pod-template.yaml` text, and `Owner` is what `findOwner`
returns when started at the pod named by `HOSTNAME` in that namespace (nil when it finds no
owner); the error returned with it is nil. -/
theorem Get_attaches_three_fields (lib : Lib) (fuel : Nat) (ns : String) (cl : Reader)
    (cfg : Config) (err : Option String)
    (h : Get lib fuel ns cl = some (some cfg, err)) :
    ∃ cm c d t name owner,
      cl.GetConfigMap ⟨ns, lib.Getenv EnvConfigMapName⟩ ⟨fun _ => none⟩ = (cm, none)
      ∧ cm.Data ConfigFileName = some c ∧ lib.Decode c = .ok d
      ∧ cm.Data PodTemplateName = some t
      ∧ (findOwner cl fuel (RuntimeObject.pod emptyPod) ns (lib.Getenv EnvHostname)).2
          = some (name, owner)
      ∧ cfg = ⟨d.Name, d.JobServiceAccount, d.JobNodeSelector, d.RunOnUnscheduledNodes,
          d.CronExpression, d.ReportDirectory, d.ReportHistory, d.PodPoolSize, d.RunOnStartup,
          d.Metrics, d.Custom, d.CallbackServiceName, d.CallbackServicePort, ns, t, owner⟩
      ∧ err = none := by
  rcases hcm : cl.GetConfigMap ⟨ns, lib.Getenv EnvConfigMapName⟩ ⟨fun _ => none⟩
    with ⟨cm, e₀⟩
  rcases e₀ with _ | e
  swap
  · rw [Get_error_configmap lib fuel ns cl cm e hcm] at h; simp at h
  rcases h2 : cm.Data ConfigFileName with _ | c
  · rw [Get_error_no_config lib fuel ns cl cm hcm h2] at h; simp at h
  rcases h3 : lib.Decode c with e | d
  · rw [Get_error_decode lib fuel ns cl cm c e hcm h2 h3] at h; simp at h
  rcases h4 : cm.Data PodTemplateName with _ | t
  · rw [Get_error_no_template lib fuel ns cl cm c d hcm h2 h3 h4] at h; simp at h
  rw [Get_of_checks lib fuel ns cl cm c t d hcm h2 h3 h4, findPodOwner_eq] at h
  rcases hf : (findOwner cl fuel (RuntimeObject.pod emptyPod) ns (lib.Getenv EnvHostname)).2
    with _ | ⟨name, owner⟩
  · rw [hf] at h; simp at h
  · rw [hf] at h
    simp only [Option.map_some', Option.some.injEq, Prod.mk.injEq] at h
    obtain ⟨hc, he⟩ := h
    exact ⟨cm, c, d, t, name, owner, rfl, h2, h3, h4, rfl, hc.symm, he.symm⟩

theorem Get_ownerReader :
    Get testLib 3 "ns" ownerReader
      = some (some (attach (namedConfig "foo") "ns" "kind: Pod" (some testDeployment)),
          none) := by
  have ho : findPodOwner testLib 3 "ns" ownerReader = some (some testDeployment) := by decide
  rw [Get_of_checks testLib 3 "ns" ownerReader ⟨testData⟩ "name: foo" "kind: Pod"
    (namedConfig "foo") rfl (by decide) (by simp [testLib]) (by decide), ho]
  rfl

/-- C8, on the test "should return a config with owner". -/
theorem Get_attaches_three_fields_witness :
    ∃ cm c d t name owner,
      ownerReader.GetConfigMap ⟨"ns", testLib.Getenv EnvConfigMapName⟩ ⟨fun _ => none⟩
          = (cm, none)
      ∧ cm.Data ConfigFileName = some c ∧ testLib.Decode c = .ok d
      ∧ cm.Data PodTemplateName = some t
      ∧ (findOwner ownerReader 3 (RuntimeObject.pod emptyPod) "ns"
          (testLib.Getenv EnvHostname)).2 = some (name, owner)
      ∧ attach (namedConfig "foo") "ns" "kind: Pod" (some testDeployment)
          = ⟨d.Name, d.JobServiceAccount, d.JobNodeSelector, d.RunOnUnscheduledNodes,
            d.CronExpression, d.ReportDirectory, d.ReportHistory, d.PodPoolSize,
            d.RunOnStartup, d.Metrics, d.Custom, d.CallbackServiceName,
            d.CallbackServicePort, "ns", t, owner⟩
      ∧ (none : Option String) = none :=
  Get_attaches_three_fields testLib 3 "ns" ownerReader
    (attach (namedConfig "foo") "ns" "kind: Pod" (some testDeployment)) none Get_ownerReader

/-! ## The callback server -/

/-- C9: for a request with path segments (node, executionID), the admission middleware runs
the downstream handler exactly once when the registry is absent or has the pair (its result
is that of one run of the handler; the counting handler of the test goes up by one); when
the registry is present and does not have the pair, the handler is not run (its state is
untouched, the count stays), the status is 406 and the body starts with the fixed prefix. -/
theorem middleware_admission {σ : Type} (cache : Option Cache)
    (errorMiddlewareNotAcceptable : String) (detail : Request → String) (next : Handler σ)
    (r : Request) (st : σ × ResponseRecorder) (count : Nat) :
    ((cache = none ∨ ∃ c, cache = some c ∧ c.Has r.node r.executionID = true) →
      middleware cache errorMiddlewareNotAcceptable detail next r st = next r st
      ∧ (middleware cache errorMiddlewareNotAcceptable detail fakeHandler r (count, st.2)).1
          = count + 1)
    ∧ (∀ c, cache = some c → c.Has r.node r.executionID = false →
      (middleware cache errorMiddlewareNotAcceptable detail next r st).1 = st.1
      ∧ (middleware cache errorMiddlewareNotAcceptable detail fakeHandler r (count, st.2)).1
          = count
      ∧ (middleware cache errorMiddlewareNotAcceptable detail next r st).2.Code = 406
      ∧ ∃ rest, (middleware cache errorMiddlewareNotAcceptable detail next r st).2.Body
          = errorMiddlewareNotAcceptable ++ rest) := by
  constructor
  · rintro (rfl | ⟨c, rfl, hc⟩)
    · exact ⟨rfl, rfl⟩
    · simp [middleware, hc, fakeHandler]
  · rintro c rfl hc
    simp [middleware, hc, StatusNotAcceptable]

/-- C9, with a registry that does not know the execution. -/
theorem middleware_admission_witness :
    (middleware (some emptyCache) "execution not known" (fun r => ": " ++ r.node) fakeHandler
        (fileRequest none none none) (0, ⟨200, ""⟩)).1 = 0
      ∧ (middleware (some emptyCache) "execution not known" (fun r => ": " ++ r.node)
          fakeHandler (fileRequest none none none) (0, ⟨200, ""⟩)).1 = 0
      ∧ (middleware (some emptyCache) "execution not known" (fun r => ": " ++ r.node)
          fakeHandler (fileRequest none none none) (0, ⟨200, ""⟩)).2.Code = 406
      ∧ ∃ rest, (middleware (some emptyCache) "execution not known" (fun r => ": " ++ r.node)
          fakeHandler (fileRequest none none none) (0, ⟨200, ""⟩)).2.Body
            = "execution not known" ++ rest :=
  (middleware_admission (some emptyCache) "execution not known" (fun r => ": " ++ r.node)
    fakeHandler (fileRequest none none none) (0, ⟨200, ""⟩) 0).2 emptyCache rfl rfl

/-- C10: the file handler stores the request body under the name `node-chosen`, where
`chosen` is the query parameter `name` when present (also when a `Content-Disposition`
filename is given), else the `Content-Disposition` filename, else a generated name ending in
`.json` for content type `application/json`, `.txt` for `text/plain` and `.file` for any other
or absent content type. -/
theorem postFile_stored_name (reportPath : String) (cache : Option Cache) (generated : String)
    (r : Request) (st : Storage × ResponseRecorder) :
    (∀ n, r.queryName = some n →
      (postFile reportPath cache generated r st).1.files
        = ⟨reportPath ++ "/" ++ r.executionID, r.node ++ "-" ++ n, r.body⟩ :: st.1.files)
    ∧ (r.queryName = none → ∀ n, r.dispositionFilename = some n →
      (postFile reportPath cache generated r st).1.files
        = ⟨reportPath ++ "/" ++ r.executionID, r.node ++ "-" ++ n, r.body⟩ :: st.1.files)
    ∧ (r.queryName = none → r.dispositionFilename = none →
      (r.contentType = some "application/json" →
        (postFile reportPath cache generated r st).1.files
          = ⟨reportPath ++ "/" ++ r.executionID, r.node ++ "-" ++ (generated ++ ".json"),
              r.body⟩ :: st.1.files)
      ∧ (r.contentType = some "text/plain" →
        (postFile reportPath cache generated r st).1.files
          = ⟨reportPath ++ "/" ++ r.executionID, r.node ++ "-" ++ (generated ++ ".txt"),
              r.body⟩ :: st.1.files)
      ∧ (r.contentType ≠ some "application/json" → r.contentType ≠ some "text/plain" →
        (postFile reportPath cache generated r st).1.files
          = ⟨reportPath ++ "/" ++ r.executionID, r.node ++ "-" ++ (generated ++ ".file"),
              r.body⟩ :: st.1.files)) := by
  refine ⟨?_, ?_, ?_⟩
  · intro n hq
    simp [postFile, chosenFileName, hq]
  · intro hq n hd
    simp [postFile, chosenFileName, hq, hd]
  · intro hq hd
    refine ⟨?_, ?_, ?_⟩
    · intro hc
      simp [postFile, chosenFileName, hq, hd, generatedExtension, hc]
    · intro hc
      simp [postFile, chosenFileName, hq, hd, generatedExtension, hc]
    · intro hj ht
      simp [postFile, chosenFileName, hq, hd, generatedExtension, hj, ht]

/-- C10, with both a query parameter and a `Content-Disposition` filename: the query
parameter names the file. -/
theorem postFile_stored_name_witness :
    (postFile "/reports" none "generated" (fileRequest (some "a.txt") (some "b.txt") none)
        (⟨[], []⟩, ⟨200, ""⟩)).1.files
      = [⟨"/reports" ++ "/" ++ "exec-1", "node-1" ++ "-" ++ "a.txt", [102, 111, 111]⟩] :=
  (postFile_stored_name "/reports" none "generated"
    (fileRequest (some "a.txt") (some "b.txt") none) (⟨[], []⟩, ⟨200, ""⟩)).1 "a.txt" rfl

/-! ## `NameFor`, and more on `PodName` -/

/-- C11: for every `Metrics` value and every metric name, `NameFor` is the prefix, an
underscore and the name (prefix `my_metric` and name `name` give `my_metric_name`); the
gauges, the only other field, play no part. -/
theorem NameFor_format :
    (∀ (m : Metrics) (n : String), m.NameFor n = m.Prefix ++ "_" ++ n)
    ∧ (∀ gauges : String → Option Metric,
      (Metrics.mk "my_metric" gauges).NameFor "name" = "my_metric_name")
    ∧ (∀ (p n : String) (g₁ g₂ : String → Option Metric),
      (Metrics.mk p g₁).NameFor n = (Metrics.mk p g₂).NameFor n) :=
  ⟨fun _ _ => rfl,
    fun _ => show "my_metric" ++ "_" ++ "name" = "my_metric_name" by decide,
    fun _ _ _ _ => rfl⟩

theorem firstSegment_of_no_dot (nodeName : String) (h : '.' ∉ nodeName.data) :
    firstSegment nodeName = nodeName := by
  unfold firstSegment
  rw [takeWhile_ne_of_not_mem _ _ h]

theorem firstSegment_dot_leading (b : String) : firstSegment ("." ++ b) = "" := by
  have e : ("." ++ b).data = '.' :: b.data := by simp [String.data_append]
  simp [firstSegment, e]

/-- C12: `PodName` is total. For every node name the split on `.` has at least one element,
so `nameParts[0]` is in range and `PodName` returns; for a node name without a `.` the
segment is the whole node name, and for the empty node name and for one that starts with
`.` the segment is the empty string. -/
theorem PodName_total (cfg : Config) :
    (∀ nodeName : String, 1 ≤ (Split nodeName '.').length)
    ∧ (∀ nodeName id : String, ∃ name, cfg.PodName nodeName id = some name)
    ∧ (∀ nodeName id : String, '.' ∉ nodeName.data →
      (Split nodeName '.')[0]? = some nodeName
        ∧ cfg.PodName nodeName id = some (cfg.Name ++ "-job-" ++ nodeName ++ "-" ++ id))
    ∧ (∀ id : String,
      (Split "" '.')[0]? = some ""
        ∧ cfg.PodName "" id = some (cfg.Name ++ "-job-" ++ "" ++ "-" ++ id))
    ∧ (∀ b id : String,
      (Split ("." ++ b) '.')[0]? = some ""
        ∧ cfg.PodName ("." ++ b) id = some (cfg.Name ++ "-job-" ++ "" ++ "-" ++ id)) := by
  refine ⟨?_, ?_, ?_, ?_, ?_⟩
  · intro nodeName
    have h := Split_head nodeName '.'
    rcases hs : Split nodeName '.' with _ | ⟨x, xs⟩
    · rw [hs] at h; simp at h
    · simp
  · intro nodeName id
    exact ⟨_, PodName_eq cfg nodeName id⟩
  · intro nodeName id h
    have e := firstSegment_of_no_dot nodeName h
    refine ⟨?_, ?_⟩
    · have := Split_head nodeName '.'
      unfold firstSegment at e
      rw [this, e]
    · rw [PodName_eq, e]
  · intro id
    have e : firstSegment "" = "" := by decide
    exact ⟨by decide, by rw [PodName_eq, e]⟩
  · intro b id
    have e := firstSegment_dot_leading b
    refine ⟨?_, ?_⟩
    · have := Split_head ("." ++ b) '.'
      unfold firstSegment at e
      rw [this, e]
    · rw [PodName_eq, e]

/-- C12, at a node name without a `.`. -/
theorem PodName_total_witness :
    (Split "worker-1" '.')[0]? = some "worker-1"
      ∧ (namedConfig "ctl").PodName "worker-1" "abc"
          = some ("ctl" ++ "-job-" ++ "worker-1" ++ "-" ++ "abc") :=
  (PodName_total (namedConfig "ctl")).2.2.1 "worker-1" "abc" (by decide)

/-- C13: `PodName` is not injective on (node, executionID): for every configuration two
distinct pairs have the same pod name, once because the node name is cut at its first `.`
(nodes `a.b` and `a.c` with the same id) and once because the separator `-` can also occur
in the parts (node `a-b` with id `c`, node `a` with id `b-c`). -/
theorem PodName_not_injective (cfg : Config) :
    (∀ id : String,
      (("a.b", id) : String × String) ≠ ("a.c", id)
        ∧ cfg.PodName "a.b" id = cfg.PodName "a.c" id)
    ∧ ((("a-b", "c") : String × String) ≠ ("a", "b-c")
      ∧ cfg.PodName "a-b" "c" = cfg.PodName "a" "b-c")
    ∧ ¬ Function.Injective (fun key : String × String => cfg.PodName key.1 key.2) := by
  have h1 : firstSegment "a.b" = "a" := by decide
  have h2 : firstSegment "a.c" = "a" := by decide
  have h3 : firstSegment "a-b" = "a-b" := by decide
  have h4 : firstSegment "a" = "a" := by decide
  have hcat : "a-b" ++ ("-" ++ "c") = "a" ++ ("-" ++ "b-c") := by decide
  have hne : (("a-b", "c") : String × String) ≠ ("a", "b-c") := by decide
  have heq : cfg.PodName "a-b" "c" = cfg.PodName "a" "b-c" := by
    rw [PodName_eq, PodName_eq, h3, h4]
    simp only [String.append_assoc]
    rw [hcat]
  refine ⟨?_, ⟨hne, heq⟩, ?_⟩
  · intro id
    refine ⟨?_, by rw [PodName_eq, PodName_eq, h1, h2]⟩
    intro h
    have hfst : "a.b" = "a.c" := congrArg Prod.fst h
    exact absurd hfst (by decide)
  · intro hinj
    exact hne (hinj heq)

end BatchJobController
